import Mathlib

/-!
A shallow embedding of `provider/aws/session.go` from external-dns: the
configuration record `AWSSessionConfig`, the two session/config builders
`newSession` (AWS SDK v1) and `newV2Config` (AWS SDK v2), and the top-level
entry points `CreateDefaultSession`, `CreateDefaultV2Config` and
`CreateSessions`.

The AWS SDK itself is external to the repository; it is modelled by an
abstract environment `SDKEnv` that decides, per requested profile, whether
base session/config construction succeeds or fails with an error message.
`logrus.Fatal` (process termination) is modelled as the `Except.error`
branch of the top-level entry points: an `.ok` result is a returned handle,
an `.error` result is a fatal log followed by termination.
-/

namespace AWSSession

/-- Go's `strings.Split(s, sep)` for a one-character separator, on the
character list of the string: splits around each occurrence of `sep`,
yielding `[[]]` for the empty string (as Go does for `""`). -/
def goSplitChars (sep : Char) : List Char → List (List Char)
  | [] => [[]]
  | c :: rest =>
    if c = sep then [] :: goSplitChars sep rest
    else
      match goSplitChars sep rest with
      | [] => [[c]]
      | h :: t => (c :: h) :: t

/-- Go's `strings.Split(s, "/")`-style split lifted to `String`. -/
def goSplit (s : String) (sep : Char) : List String :=
  (goSplitChars sep s.data).map String.mk

/-- The PathProcessor closure of both builders:
`parts := strings.Split(path, "/"); return parts[len(parts)-1]`.
Go's out-of-bounds panic is modelled by `none`; the split in fact always
returns a non-empty list, so the result is always `some`. -/
def pathProcessor (path : String) : Option String :=
  let parts := goSplit path '/'
  parts[parts.length - 1]?

/-- `AWSSessionConfig` of session.go; field defaults are Go's zero values,
so a Lean structure literal omitting a field matches a Go struct literal
omitting it. `APIRetries` is a Go `int`, modelled as `Int`. -/
structure AWSSessionConfig where
  AssumeRole : String := ""
  AssumeRoleExternalID : String := ""
  APIRetries : Int := 0
  Profile : String := ""

/-- The credential source configured into a produced handle:
either the SDK default chain (the credentials field untouched), or an
STS assume-role provider for a role with an optional external ID.
(`stscreds.NewCredentials` in v1, `stscredsv2.NewAssumeRoleProvider`
wrapped in `awsv2.NewCredentialsCache` in v2.) -/
inductive CredSource where
  | defaultChain
  | assumeRole (role : String) (externalID : Option String)
deriving DecidableEq

/-- The HTTP client handed to the SDK: the default client, or
`instrumented_http.NewClient(inner, callbacks)` whose callbacks carry the
path-label reducer. -/
inductive HTTPClient where
  | defaultClient
  | instrumented (inner : HTTPClient) (processor : String → Option String)

/-- The path-label reducer installed in an instrumented client, if any. -/
def HTTPClient.processorOf : HTTPClient → Option (String → Option String)
  | .defaultClient => none
  | .instrumented _ f => some f

/-- The observable state of an SDK v1 `*session.Session` handle as this
layer configures it: max retries (`aws.Config.MaxRetries`, set by
`WithMaxRetries`), the HTTP client, the requested shared-config profile,
the credential source, and the Build handlers pushed
(name and version of each user-agent handler). -/
structure SessionV1 where
  maxRetries : Option Int
  httpClient : HTTPClient
  profile : String
  credentials : CredSource
  buildHandlers : List (String × String)

/-- The observable state of an SDK v2 `awsv2.Config` handle as this layer
configures it: the max attempts configured into the retryer
(`retry.AddWithMaxAttempts(retry.NewStandard(), APIRetries)`), the HTTP
client, the requested shared-config profile and the credential source. -/
structure ConfigV2 where
  retryMaxAttempts : Int
  httpClient : HTTPClient
  profile : String
  credentials : CredSource

/-- The external AWS SDK, abstracted: per requested shared-config profile,
either the base session (v1) / base config (v2) construction succeeds, or
it fails with an error message (e.g. a malformed shared-config file). -/
structure SDKEnv where
  v1New : String → Except String Unit
  v2Load : String → Except String Unit

/-- Modelled from the spec: a request-signing user-agent tag identifying
this tool and its version (`externaldns.Version`, declared outside this
file) is attached to the legacy-generation handle. The concrete version
string is irrelevant to every claim. -/
def externalDNSVersion : String := "unknown"

/-- The pure part of `newSession`: the session handle as configured once
the SDK base construction has succeeded. `aws.NewConfig().WithMaxRetries`
sets max retries; `WithHTTPClient` wraps the (default) client in the
instrumented client with the path reducer; the assume-role branches mirror
lines 131-141 of session.go; the user-agent Build handler is pushed last. -/
def mkSessionV1 (awsConfig : AWSSessionConfig) : SessionV1 :=
  { maxRetries := some awsConfig.APIRetries
  , httpClient := .instrumented .defaultClient (fun path =>
      let parts := goSplit path '/'
      parts[parts.length - 1]?)
  , profile := awsConfig.Profile
  , credentials :=
      if awsConfig.AssumeRole ≠ "" then
        if awsConfig.AssumeRoleExternalID ≠ "" then
          .assumeRole awsConfig.AssumeRole (some awsConfig.AssumeRoleExternalID)
        else
          .assumeRole awsConfig.AssumeRole none
      else .defaultChain
  , buildHandlers := [("ExternalDNS", externalDNSVersion)] }

/-- `newSession` of session.go: build the v1 session, or wrap the SDK's
base-construction error with the prefix `instantiating AWS session: `
(Go: `fmt.Errorf("instantiating AWS session: %w", err)`). -/
def newSession (env : SDKEnv) (awsConfig : AWSSessionConfig) :
    Except String SessionV1 :=
  match env.v1New awsConfig.Profile with
  | .error e => .error ("instantiating AWS session: " ++ e)
  | .ok _ => .ok (mkSessionV1 awsConfig)

/-- The pure part of `newV2Config`: the v2 config as configured once
`config.LoadDefaultConfig` has succeeded. The retryer gets
`MaxAttempts = APIRetries`; the HTTP client is the instrumented wrapper of
a fresh default client with the same path reducer; the assume-role branch
mirrors lines 167-182 of session.go (`assumeRoleOpts` sets the external ID
only when non-empty; the provider is wrapped in a credentials cache). -/
def mkConfigV2 (awsConfig : AWSSessionConfig) : ConfigV2 :=
  { retryMaxAttempts := awsConfig.APIRetries
  , httpClient := .instrumented .defaultClient (fun path =>
      let parts := goSplit path '/'
      parts[parts.length - 1]?)
  , profile := awsConfig.Profile
  , credentials :=
      if awsConfig.AssumeRole ≠ "" then
        let extID : Option String :=
          if awsConfig.AssumeRoleExternalID ≠ "" then
            some awsConfig.AssumeRoleExternalID
          else none
        .assumeRole awsConfig.AssumeRole extID
      else .defaultChain }

/-- `newV2Config` of session.go: build the v2 config, or wrap the SDK's
base-construction error with the prefix `instantiating AWS config: `
(Go: `fmt.Errorf("instantiating AWS config: %w", err)`). -/
def newV2Config (env : SDKEnv) (awsConfig : AWSSessionConfig) :
    Except String ConfigV2 :=
  match env.v2Load awsConfig.Profile with
  | .error e => .error ("instantiating AWS config: " ++ e)
  | .ok _ => .ok (mkConfigV2 awsConfig)

/-- Modelled from the spec: the process-wide configuration object
(`externaldns.Config`, declared outside this file) supplying the
assume-role identifier, the assume-role external ID, the API retry count
and the ordered list of profile names. Defaults are Go zero values. -/
structure ExternalDNSConfig where
  AWSAssumeRole : String := ""
  AWSAssumeRoleExternalID : String := ""
  AWSAPIRetries : Int := 0
  AWSProfiles : List String := []

/-- Modelled from the spec: the implicit default key of the named-session
map (`defaultAWSProfile`, declared outside this file). -/
def defaultAWSProfile : String := "default"

/-- `CreateDefaultSession`: build the default v1 session from the
process-wide configuration (Profile omitted, hence Go's zero value `""`);
on error, `logrus.Fatal` — modelled as the `.error` branch. -/
def CreateDefaultSession (env : SDKEnv) (cfg : ExternalDNSConfig) :
    Except String SessionV1 :=
  newSession env
    { AssumeRole := cfg.AWSAssumeRole
    , AssumeRoleExternalID := cfg.AWSAssumeRoleExternalID
    , APIRetries := cfg.AWSAPIRetries }

/-- `CreateDefaultV2Config`: build the default v2 config from the
process-wide configuration; on error, `logrus.Fatal` — modelled as the
`.error` branch. -/
def CreateDefaultV2Config (env : SDKEnv) (cfg : ExternalDNSConfig) :
    Except String ConfigV2 :=
  newV2Config env
    { AssumeRole := cfg.AWSAssumeRole
    , AssumeRoleExternalID := cfg.AWSAssumeRoleExternalID
    , APIRetries := cfg.AWSAPIRetries }

/-- Go's `result[profile] = session` on a `map[string]*session.Session`,
modelled on an association list: overwrite the entry when the key is
present, append otherwise. -/
def mapInsert (m : List (String × SessionV1)) (k : String) (v : SessionV1) :
    List (String × SessionV1) :=
  if m.any (fun p => p.1 = k) then
    m.map (fun p => if p.1 = k then (k, v) else p)
  else m ++ [(k, v)]

/-- Go map indexing `m[k]` (the found value, or absence). -/
def mapLookup (m : List (String × SessionV1)) (k : String) : Option SessionV1 :=
  (m.find? (fun p => p.1 = k)).map Prod.snd

/-- The `AWSSessionConfig` literal the profile loop of `CreateSessions`
builds for one profile. -/
def cfgFor (cfg : ExternalDNSConfig) (profile : String) : AWSSessionConfig :=
  { AssumeRole := cfg.AWSAssumeRole
  , AssumeRoleExternalID := cfg.AWSAssumeRoleExternalID
  , APIRetries := cfg.AWSAPIRetries
  , Profile := profile }

/-- The `for _, profile := range cfg.AWSProfiles` loop of `CreateSessions`:
build one session per profile in list order, storing each under its
profile name; a build failure is `logrus.Fatal` — modelled as stopping
with `.error`, so no partial map is returned. -/
def createSessionsLoop (env : SDKEnv) (cfg : ExternalDNSConfig) :
    List String → List (String × SessionV1) →
    Except String (List (String × SessionV1))
  | [], result => .ok result
  | profile :: rest, result =>
    match newSession env (cfgFor cfg profile) with
    | .error e => .error e
    | .ok s => createSessionsLoop env cfg rest (mapInsert result profile s)

/-- `CreateSessions` of session.go: when no profiles are requested
(`len == 0`, or `len == 1` with the single profile equal to `""`), one
default-built session under the default key; otherwise one session per
requested profile. Fatal errors are the `.error` branch. -/
def CreateSessions (env : SDKEnv) (cfg : ExternalDNSConfig) :
    Except String (List (String × SessionV1)) :=
  if cfg.AWSProfiles.length = 0 ∨
      (cfg.AWSProfiles.length = 1 ∧ cfg.AWSProfiles.head? = some "") then
    match newSession env
        { AssumeRole := cfg.AWSAssumeRole
        , AssumeRoleExternalID := cfg.AWSAssumeRoleExternalID
        , APIRetries := cfg.AWSAPIRetries } with
    | .error e => .error e
    | .ok s => .ok [(defaultAWSProfile, s)]
  else
    createSessionsLoop env cfg cfg.AWSProfiles []

/-! ### The spec-side description of the path-label reducer

The spec describes the reducer as returning "the final path segment, i.e.
the substring after the last `/`". `specLastSegmentChars` / `specLastSegment`
follow those words directly, to be compared with `pathProcessor`, which is
translated from the code. -/

/-- The suffix of a character list after its last occurrence of `sep`
(the whole list when `sep` does not occur). Written from the spec's words,
not from the code. -/
def specLastSegmentChars (sep : Char) : List Char → List Char
  | [] => []
  | c :: rest =>
    if sep ∈ rest then specLastSegmentChars sep rest
    else if c = sep then rest
    else c :: rest

/-- The substring of `s` after the last `/`, per the spec's words. -/
def specLastSegment (s : String) : String :=
  String.mk (specLastSegmentChars '/' s.data)

/-! ### Helper lemmas about the split -/

theorem goSplitChars_ne_nil (sep : Char) (l : List Char) :
    goSplitChars sep l ≠ [] := by
  cases l with
  | nil => simp [goSplitChars]
  | cons c rest =>
    by_cases h : c = sep
    · simp [goSplitChars, h]
    · simp only [goSplitChars, if_neg h]
      cases goSplitChars sep rest with
      | nil => simp
      | cons hd tl => simp

theorem goSplitChars_of_not_mem {sep : Char} {l : List Char}
    (h : sep ∉ l) : goSplitChars sep l = [l] := by
  induction l with
  | nil => rfl
  | cons c rest ih =>
    have hc : ¬c = sep := fun hcs => h (hcs ▸ List.mem_cons_self c rest)
    have hrest : sep ∉ rest := fun hm => h (List.mem_cons_of_mem c hm)
    simp only [goSplitChars, if_neg hc, ih hrest]

theorem goSplitChars_singleton {sep : Char} {l h : List Char}
    (hs : goSplitChars sep l = [h]) : l = h ∧ sep ∉ l := by
  induction l generalizing h with
  | nil =>
    simp only [goSplitChars, List.cons.injEq] at hs
    simp [← hs.1]
  | cons c rest ih =>
    by_cases hc : c = sep
    · simp only [goSplitChars, if_pos hc, List.cons.injEq] at hs
      exact absurd hs.2 (goSplitChars_ne_nil sep rest)
    · simp only [goSplitChars, if_neg hc] at hs
      cases hrest : goSplitChars sep rest with
      | nil => exact absurd hrest (goSplitChars_ne_nil sep rest)
      | cons hd tl =>
        rw [hrest] at hs
        simp only [List.cons.injEq] at hs
        obtain ⟨h1, h2⟩ := hs
        obtain ⟨hl, hm⟩ := ih (h2 ▸ hrest)
        subst hl
        refine ⟨by rw [← h1], ?_⟩
        intro hmem
        rcases List.mem_cons.mp hmem with h | h
        · exact hc h.symm
        · exact hm h

theorem specLastSegmentChars_of_not_mem {sep : Char} {l : List Char}
    (h : sep ∉ l) : specLastSegmentChars sep l = l := by
  cases l with
  | nil => rfl
  | cons c rest =>
    have hc : ¬c = sep := fun hcs => h (hcs ▸ List.mem_cons_self c rest)
    have hrest : sep ∉ rest := fun hm => h (List.mem_cons_of_mem c hm)
    simp [specLastSegmentChars, hrest, hc]

/-- The last piece of the split is exactly the suffix after the last
separator. -/
theorem goSplitChars_getLast (sep : Char) (l : List Char) :
    (goSplitChars sep l).getLast? = some (specLastSegmentChars sep l) := by
  induction l with
  | nil => rfl
  | cons c rest ih =>
    by_cases hc : c = sep
    · subst hc
      have hstep : goSplitChars c (c :: rest) = [] :: goSplitChars c rest := by
        simp [goSplitChars]
      rw [hstep]
      by_cases hm : c ∈ rest
      · cases hrest : goSplitChars c rest with
        | nil => exact absurd hrest (goSplitChars_ne_nil c rest)
        | cons hd tl =>
          rw [hrest] at ih
          rw [List.getLast?_cons_cons, ih]
          simp [specLastSegmentChars, hm]
      · rw [goSplitChars_of_not_mem hm]
        simp [specLastSegmentChars, hm, specLastSegmentChars_of_not_mem hm]
    · simp only [goSplitChars, if_neg hc]
      cases hrest : goSplitChars sep rest with
      | nil => exact absurd hrest (goSplitChars_ne_nil sep rest)
      | cons hd tl =>
        cases tl with
        | nil =>
          obtain ⟨hl, hm⟩ := goSplitChars_singleton hrest
          subst hl
          have hmem : sep ∉ c :: rest := by
            intro hmem
            rcases List.mem_cons.mp hmem with h | h
            · exact hc h.symm
            · exact hm h
          simp [specLastSegmentChars_of_not_mem hmem]
        | cons t0 t1 =>
          have hm : sep ∈ rest := by
            by_contra hnm
            rw [goSplitChars_of_not_mem hnm] at hrest
            simp at hrest
          rw [hrest] at ih
          rw [List.getLast?_cons_cons, ← List.getLast?_cons_cons (a := hd), ih]
          simp [specLastSegmentChars, hm]

/-- `pathProcessor` computes the spec's "substring after the last `/`",
and in particular never fails. -/
theorem pathProcessor_eq_specLastSegment (path : String) :
    pathProcessor path = some (specLastSegment path) := by
  unfold pathProcessor goSplit specLastSegment
  rw [← List.getLast?_eq_getElem?, List.getLast?_map,
    goSplitChars_getLast]
  rfl

theorem specLastSegmentChars_concat_sep (sep : Char) (l : List Char) :
    specLastSegmentChars sep (l ++ [sep]) = [] := by
  induction l with
  | nil => simp [specLastSegmentChars]
  | cons c rest ih =>
    have hm : sep ∈ rest ++ [sep] := by simp
    simp [specLastSegmentChars, hm, ih]

/-! ### Helper lemmas about the Go-map model -/

theorem any_key_iff (m : List (String × SessionV1)) (k : String) :
    m.any (fun p => p.1 = k) = true ↔ k ∈ m.map Prod.fst := by
  simp only [List.any_eq_true, decide_eq_true_eq, List.mem_map]

theorem keys_mapInsert (m : List (String × SessionV1)) (k : String)
    (v : SessionV1) :
    (mapInsert m k v).map Prod.fst =
      if m.any (fun p => p.1 = k) then m.map Prod.fst
      else m.map Prod.fst ++ [k] := by
  unfold mapInsert
  split
  · rw [List.map_map]
    refine List.map_congr_left (fun p _ => ?_)
    by_cases hp : p.1 = k
    · simp [hp]
    · simp [hp]
  · simp

theorem keys_mapInsert_nodup {m : List (String × SessionV1)} {k : String}
    {v : SessionV1} (h : (m.map Prod.fst).Nodup) :
    ((mapInsert m k v).map Prod.fst).Nodup := by
  rw [keys_mapInsert]
  split
  · exact h
  · next hna =>
    have hk : k ∉ m.map Prod.fst := fun hmem =>
      hna ((any_key_iff m k).mpr hmem)
    refine List.Nodup.append h (List.nodup_singleton k) ?_
    intro a ha hb
    rw [List.mem_singleton] at hb
    subst hb
    exact hk ha

theorem mem_keys_mapInsert (m : List (String × SessionV1)) (k : String)
    (v : SessionV1) (p : String) :
    p ∈ (mapInsert m k v).map Prod.fst ↔ p ∈ m.map Prod.fst ∨ p = k := by
  rw [keys_mapInsert]
  split
  · next ha =>
    have hk : k ∈ m.map Prod.fst := (any_key_iff m k).mp ha
    constructor
    · exact Or.inl
    · rintro (h | rfl)
      · exact h
      · exact hk
  · simp

theorem find?_overwrite (m : List (String × SessionV1)) (k : String)
    (v : SessionV1) (ha : m.any (fun p => p.1 = k) = true) :
    (m.map fun p => if p.1 = k then (k, v) else p).find?
      (fun p => p.1 = k) = some (k, v) := by
  induction m with
  | nil => simp at ha
  | cons q rest ih =>
    by_cases hq : q.1 = k
    · rw [List.map_cons, if_pos hq, List.find?_cons_of_pos _ (by simp)]
    · have ha' : rest.any (fun p => p.1 = k) = true := by
        simpa [List.any_cons, hq] using ha
      rw [List.map_cons, if_neg hq, List.find?_cons_of_neg _ (by simp [hq])]
      exact ih ha'

theorem find?_append_absent (m : List (String × SessionV1)) (k : String)
    (v : SessionV1) (ha : ¬ m.any (fun p => p.1 = k) = true) :
    (m ++ [(k, v)]).find? (fun p => p.1 = k) = some (k, v) := by
  induction m with
  | nil => rw [List.nil_append, List.find?_cons_of_pos _ (by simp)]
  | cons q rest ih =>
    have hq : ¬ q.1 = k := fun h => ha (by simp [List.any_cons, h])
    have ha' : ¬ rest.any (fun p => p.1 = k) = true := fun h =>
      ha (by simp [List.any_cons, h])
    rw [List.cons_append, List.find?_cons_of_neg _ (by simp [hq])]
    exact ih ha'

theorem mapLookup_mapInsert_self (m : List (String × SessionV1)) (k : String)
    (v : SessionV1) : mapLookup (mapInsert m k v) k = some v := by
  unfold mapLookup mapInsert
  split
  · next ha =>
    rw [find?_overwrite m k v ha]
    rfl
  · next ha =>
    rw [find?_append_absent m k v ha]
    rfl

theorem find?_map_other (m : List (String × SessionV1)) {k k' : String}
    (v : SessionV1) (hk : k' ≠ k) :
    (m.map fun p => if p.1 = k then (k, v) else p).find?
      (fun p => p.1 = k') = m.find? (fun p => p.1 = k') := by
  induction m with
  | nil => rfl
  | cons q rest ih =>
    by_cases hq' : q.1 = k'
    · have hq : ¬ q.1 = k := fun h => hk (hq' ▸ h ▸ rfl)
      rw [List.map_cons, if_neg hq, List.find?_cons_of_pos _ (by simp [hq']),
        List.find?_cons_of_pos _ (by simp [hq'])]
    · by_cases hq : q.1 = k
      · rw [List.map_cons, if_pos hq,
          List.find?_cons_of_neg _ (by simp [Ne.symm hk]),
          List.find?_cons_of_neg _ (by simp [hq'])]
        exact ih
      · rw [List.map_cons, if_neg hq,
          List.find?_cons_of_neg _ (by simp [hq']),
          List.find?_cons_of_neg _ (by simp [hq'])]
        exact ih

theorem find?_append_other (m : List (String × SessionV1)) {k k' : String}
    (v : SessionV1) (hk : k' ≠ k) :
    (m ++ [(k, v)]).find? (fun p => p.1 = k') =
      m.find? (fun p => p.1 = k') := by
  induction m with
  | nil =>
    rw [List.nil_append, List.find?_cons_of_neg _ (by simp [Ne.symm hk])]
  | cons q rest ih =>
    by_cases hq' : q.1 = k'
    · rw [List.cons_append, List.find?_cons_of_pos _ (by simp [hq']),
        List.find?_cons_of_pos _ (by simp [hq'])]
    · rw [List.cons_append, List.find?_cons_of_neg _ (by simp [hq']),
        List.find?_cons_of_neg _ (by simp [hq'])]
      exact ih

theorem mapLookup_mapInsert_other (m : List (String × SessionV1))
    {k k' : String} (v : SessionV1) (hk : k' ≠ k) :
    mapLookup (mapInsert m k v) k' = mapLookup m k' := by
  unfold mapLookup mapInsert
  split
  · rw [find?_map_other m v hk]
  · rw [find?_append_other m v hk]

/-! ### Helper lemmas about the profile loop -/

/-- An SDK environment in which every base construction succeeds. -/
def allOkEnv : SDKEnv :=
  { v1New := fun _ => .ok ()
  , v2Load := fun _ => .ok () }

theorem newSession_ok_of (env : SDKEnv) (c : AWSSessionConfig)
    (h : env.v1New c.Profile = .ok ()) :
    newSession env c = .ok (mkSessionV1 c) := by
  unfold newSession
  rw [h]

theorem v1New_ok_of_newSession_ok {env : SDKEnv} {c : AWSSessionConfig}
    {s : SessionV1} (h : newSession env c = .ok s) :
    env.v1New c.Profile = .ok () := by
  unfold newSession at h
  cases he : env.v1New c.Profile with
  | error e => rw [he] at h; exact absurd h (by simp)
  | ok u => cases u; rfl

theorem mkSessionV1_of_newSession_ok {env : SDKEnv} {c : AWSSessionConfig}
    {s : SessionV1} (h : newSession env c = .ok s) : s = mkSessionV1 c := by
  unfold newSession at h
  cases he : env.v1New c.Profile with
  | error e => rw [he] at h; exact absurd h (by simp)
  | ok u => rw [he] at h; cases h; rfl

theorem mkConfigV2_of_newV2Config_ok {env : SDKEnv} {c : AWSSessionConfig}
    {v : ConfigV2} (h : newV2Config env c = .ok v) : v = mkConfigV2 c := by
  unfold newV2Config at h
  cases he : env.v2Load c.Profile with
  | error e => rw [he] at h; exact absurd h (by simp)
  | ok u => rw [he] at h; cases h; rfl

/-- Under an all-successful environment fragment, the loop computes a fold
of Go-map insertions over the profile list. -/
theorem createSessionsLoop_all_ok (env : SDKEnv) (cfg : ExternalDNSConfig) :
    ∀ (ps : List String) (acc : List (String × SessionV1)),
    (∀ p ∈ ps, env.v1New p = .ok ()) →
    createSessionsLoop env cfg ps acc =
      .ok (ps.foldl (fun m p => mapInsert m p (mkSessionV1 (cfgFor cfg p))) acc)
  | [], acc, _ => rfl
  | p :: rest, acc, hok => by
    have hp : env.v1New p = .ok () := hok p (List.mem_cons_self p rest)
    have hrest : ∀ q ∈ rest, env.v1New q = .ok () := fun q hq =>
      hok q (List.mem_cons_of_mem p hq)
    unfold createSessionsLoop
    rw [newSession_ok_of env (cfgFor cfg p) hp]
    exact createSessionsLoop_all_ok env cfg rest
      (mapInsert acc p (mkSessionV1 (cfgFor cfg p))) hrest

/-- If the loop returns a map, every profile's base construction
succeeded. -/
theorem createSessionsLoop_ok_all {env : SDKEnv} {cfg : ExternalDNSConfig} :
    ∀ {ps : List String} {acc m : List (String × SessionV1)},
    createSessionsLoop env cfg ps acc = .ok m →
    ∀ p ∈ ps, env.v1New p = .ok ()
  | [], _, _, _, p, hp => absurd hp (List.not_mem_nil p)
  | q :: rest, acc, m, h, p, hp => by
    unfold createSessionsLoop at h
    cases hn : newSession env (cfgFor cfg q) with
    | error e =>
      rw [hn] at h
      exact absurd h (by simp)
    | ok s =>
      rw [hn] at h
      rcases List.mem_cons.mp hp with rfl | hp'
      · exact v1New_ok_of_newSession_ok hn
      · exact createSessionsLoop_ok_all h p hp'

/-- Shorthand for the insertion fold the loop computes. -/
def loopFold (cfg : ExternalDNSConfig) (ps : List String)
    (acc : List (String × SessionV1)) : List (String × SessionV1) :=
  ps.foldl (fun m p => mapInsert m p (mkSessionV1 (cfgFor cfg p))) acc

theorem loopFold_nil (cfg : ExternalDNSConfig)
    (acc : List (String × SessionV1)) : loopFold cfg [] acc = acc := rfl

theorem loopFold_cons (cfg : ExternalDNSConfig) (p : String)
    (ps : List String) (acc : List (String × SessionV1)) :
    loopFold cfg (p :: ps) acc =
      loopFold cfg ps (mapInsert acc p (mkSessionV1 (cfgFor cfg p))) := rfl

theorem loopFold_keys_nodup (cfg : ExternalDNSConfig) :
    ∀ (ps : List String) (acc : List (String × SessionV1)),
    (acc.map Prod.fst).Nodup → ((loopFold cfg ps acc).map Prod.fst).Nodup
  | [], _, h => h
  | _ :: rest, _, h =>
    loopFold_keys_nodup cfg rest _ (keys_mapInsert_nodup h)

theorem loopFold_mem_keys (cfg : ExternalDNSConfig) :
    ∀ (ps : List String) (acc : List (String × SessionV1)) (q : String),
    q ∈ (loopFold cfg ps acc).map Prod.fst ↔
      q ∈ acc.map Prod.fst ∨ q ∈ ps
  | [], acc, q => by simp [loopFold_nil]
  | p :: rest, acc, q => by
    rw [loopFold_cons, loopFold_mem_keys cfg rest _ q, mem_keys_mapInsert]
    constructor
    · rintro ((h | rfl) | h)
      · exact Or.inl h
      · exact Or.inr (List.mem_cons_self q rest)
      · exact Or.inr (List.mem_cons_of_mem p h)
    · rintro (h | h)
      · exact Or.inl (Or.inl h)
      · rcases List.mem_cons.mp h with rfl | h'
        · exact Or.inl (Or.inr rfl)
        · exact Or.inr h'

theorem loopFold_lookup_not_mem (cfg : ExternalDNSConfig) :
    ∀ (ps : List String) (acc : List (String × SessionV1)) (q : String),
    q ∉ ps → mapLookup (loopFold cfg ps acc) q = mapLookup acc q
  | [], _, _, _ => rfl
  | p :: rest, acc, q, hq => by
    have hqp : q ≠ p := fun h => hq (h ▸ List.mem_cons_self p rest)
    have hqrest : q ∉ rest := fun h => hq (List.mem_cons_of_mem p h)
    rw [loopFold_cons, loopFold_lookup_not_mem cfg rest _ q hqrest,
      mapLookup_mapInsert_other acc _ hqp]

theorem loopFold_lookup_mem (cfg : ExternalDNSConfig) :
    ∀ (ps : List String) (acc : List (String × SessionV1)) (q : String),
    q ∈ ps →
    mapLookup (loopFold cfg ps acc) q = some (mkSessionV1 (cfgFor cfg q))
  | [], _, q, hq => absurd hq (List.not_mem_nil q)
  | p :: rest, acc, q, hq => by
    rw [loopFold_cons]
    by_cases hmem : q ∈ rest
    · exact loopFold_lookup_mem cfg rest _ q hmem
    · rcases List.mem_cons.mp hq with rfl | h'
      · rw [loopFold_lookup_not_mem cfg rest _ q hmem,
          mapLookup_mapInsert_self]
      · exact absurd h' hmem

/-- With distinct, fresh keys the fold is a plain append of one entry per
profile, in list order. -/
theorem loopFold_of_nodup (cfg : ExternalDNSConfig) :
    ∀ (ps : List String) (acc : List (String × SessionV1)),
    ps.Nodup → (∀ p ∈ ps, p ∉ acc.map Prod.fst) →
    loopFold cfg ps acc =
      acc ++ ps.map (fun p => (p, mkSessionV1 (cfgFor cfg p)))
  | [], acc, _, _ => by simp [loopFold_nil]
  | p :: rest, acc, hnd, hfresh => by
    have hp : p ∉ acc.map Prod.fst := hfresh p (List.mem_cons_self p rest)
    have hins : mapInsert acc p (mkSessionV1 (cfgFor cfg p)) =
        acc ++ [(p, mkSessionV1 (cfgFor cfg p))] := by
      unfold mapInsert
      rw [if_neg (fun ha => hp ((any_key_iff acc p).mp ha))]
    have hnd' : rest.Nodup := (List.nodup_cons.mp hnd).2
    have hpr : p ∉ rest := (List.nodup_cons.mp hnd).1
    have hfresh' : ∀ q ∈ rest, q ∉
        (acc ++ [(p, mkSessionV1 (cfgFor cfg p))]).map Prod.fst := by
      intro q hq hmem
      rw [List.map_append, List.mem_append] at hmem
      rcases hmem with h | h
      · exact hfresh q (List.mem_cons_of_mem p hq) h
      · rw [List.map_singleton, List.mem_singleton] at h
        subst h
        exact hpr (by simpa using hq)
    rw [loopFold_cons, hins, loopFold_of_nodup cfg rest _ hnd' hfresh',
      List.map_cons, List.append_assoc, List.singleton_append]

/-- The non-default branch condition of `CreateSessions` is off exactly for
a non-empty profile list other than `[""]`. -/
theorem createSessions_branch_neg {ps : List String}
    (hne : ps ≠ []) (hnd : ps ≠ [""]) :
    ¬(ps.length = 0 ∨ (ps.length = 1 ∧ ps.head? = some "")) := by
  rintro (h | ⟨h1, h2⟩)
  · exact hne (List.length_eq_zero.mp h)
  · cases ps with
    | nil => exact hne rfl
    | cons a t =>
      cases t with
      | nil =>
        simp only [List.head?_cons, Option.some.injEq] at h2
        exact hnd (by rw [h2])
      | cons b t' => simp at h1

/-! ### Projection lemmas for the built handles -/

theorem mkSessionV1_credentials (c : AWSSessionConfig) :
    (mkSessionV1 c).credentials =
      if c.AssumeRole ≠ "" then
        if c.AssumeRoleExternalID ≠ "" then
          .assumeRole c.AssumeRole (some c.AssumeRoleExternalID)
        else .assumeRole c.AssumeRole none
      else .defaultChain := rfl

theorem mkConfigV2_credentials (c : AWSSessionConfig) :
    (mkConfigV2 c).credentials =
      if c.AssumeRole ≠ "" then
        .assumeRole c.AssumeRole
          (if c.AssumeRoleExternalID ≠ "" then some c.AssumeRoleExternalID
           else none)
      else .defaultChain := rfl

theorem newSession_error_of {env : SDKEnv} {c : AWSSessionConfig} {e : String}
    (h : env.v1New c.Profile = .error e) :
    newSession env c = .error ("instantiating AWS session: " ++ e) := by
  unfold newSession
  rw [h]

theorem newV2Config_error_of {env : SDKEnv} {c : AWSSessionConfig}
    {e : String} (h : env.v2Load c.Profile = .error e) :
    newV2Config env c = .error ("instantiating AWS config: " ++ e) := by
  unfold newV2Config
  rw [h]

/-! ### The claims -/

/-- C1: for every `AWSSessionConfig` with `APIRetries ≥ 0`, the handle
produced by `newSession` has `MaxRetries = APIRetries` and the handle
produced by `newV2Config` has a retryer configured with
`MaxAttempts = APIRetries`: the retry count is passed through verbatim on
both paths. -/
theorem apiRetries_exact (env : SDKEnv) (c : AWSSessionConfig)
    (hr : 0 ≤ c.APIRetries)
    (s : SessionV1) (hs : newSession env c = .ok s)
    (v : ConfigV2) (hv : newV2Config env c = .ok v) :
    s.maxRetries = some c.APIRetries ∧ v.retryMaxAttempts = c.APIRetries := by
  rw [mkSessionV1_of_newSession_ok hs, mkConfigV2_of_newV2Config_ok hv]
  exact ⟨rfl, rfl⟩

theorem apiRetries_exact_witness :
    (mkSessionV1 { APIRetries := 3 }).maxRetries = some 3 ∧
    (mkConfigV2 { APIRetries := 3 }).retryMaxAttempts = 3 :=
  apiRetries_exact allOkEnv { APIRetries := 3 } (by decide)
    (mkSessionV1 { APIRetries := 3 }) rfl
    (mkConfigV2 { APIRetries := 3 }) rfl

/-- C2: for every input configuration, the v1 and v2 build paths configure
the same retry count, install the same path-label reducer in the
instrumented HTTP client, and install the same credential source. -/
theorem generations_same_policy (env : SDKEnv) (c : AWSSessionConfig)
    (s : SessionV1) (hs : newSession env c = .ok s)
    (v : ConfigV2) (hv : newV2Config env c = .ok v) :
    s.maxRetries = some v.retryMaxAttempts ∧
    s.httpClient.processorOf = v.httpClient.processorOf ∧
    s.credentials = v.credentials := by
  rw [mkSessionV1_of_newSession_ok hs, mkConfigV2_of_newV2Config_ok hv]
  refine ⟨rfl, rfl, ?_⟩
  rw [mkSessionV1_credentials, mkConfigV2_credentials]
  by_cases h : c.AssumeRole ≠ ""
  · rw [if_pos h, if_pos h]
    by_cases he : c.AssumeRoleExternalID ≠ ""
    · rw [if_pos he, if_pos he]
    · rw [if_neg he, if_neg he]
  · rw [if_neg h, if_neg h]

theorem generations_same_policy_witness :
    (mkSessionV1 { AssumeRole := "r", APIRetries := 2 }).maxRetries =
      some (mkConfigV2 { AssumeRole := "r", APIRetries := 2 }).retryMaxAttempts ∧
    (mkSessionV1 { AssumeRole := "r", APIRetries := 2 }).httpClient.processorOf =
      (mkConfigV2 { AssumeRole := "r", APIRetries := 2 }).httpClient.processorOf ∧
    (mkSessionV1 { AssumeRole := "r", APIRetries := 2 }).credentials =
      (mkConfigV2 { AssumeRole := "r", APIRetries := 2 }).credentials :=
  generations_same_policy allOkEnv { AssumeRole := "r", APIRetries := 2 }
    (mkSessionV1 { AssumeRole := "r", APIRetries := 2 }) rfl
    (mkConfigV2 { AssumeRole := "r", APIRetries := 2 }) rfl

/-- C3: when `AssumeRole` is non-empty, both build paths install an
assume-role credential provider for that role, with the external ID set to
`AssumeRoleExternalID` exactly when the latter is non-empty and left unset
otherwise. -/
theorem assumeRole_installs_provider (env : SDKEnv) (c : AWSSessionConfig)
    (h : c.AssumeRole ≠ "")
    (s : SessionV1) (hs : newSession env c = .ok s)
    (v : ConfigV2) (hv : newV2Config env c = .ok v) :
    s.credentials = CredSource.assumeRole c.AssumeRole
        (if c.AssumeRoleExternalID ≠ "" then some c.AssumeRoleExternalID
         else none) ∧
    v.credentials = CredSource.assumeRole c.AssumeRole
        (if c.AssumeRoleExternalID ≠ "" then some c.AssumeRoleExternalID
         else none) := by
  rw [mkSessionV1_of_newSession_ok hs, mkConfigV2_of_newV2Config_ok hv]
  rw [mkSessionV1_credentials, mkConfigV2_credentials, if_pos h, if_pos h]
  refine ⟨?_, rfl⟩
  by_cases he : c.AssumeRoleExternalID ≠ ""
  · rw [if_pos he, if_pos he]
  · rw [if_neg he, if_neg he]

theorem assumeRole_installs_provider_witness :
    (mkSessionV1 { AssumeRole := "r", AssumeRoleExternalID := "x" }).credentials =
      CredSource.assumeRole "r"
        (if ("x" : String) ≠ "" then some "x" else none) ∧
    (mkConfigV2 { AssumeRole := "r", AssumeRoleExternalID := "x" }).credentials =
      CredSource.assumeRole "r"
        (if ("x" : String) ≠ "" then some "x" else none) :=
  assumeRole_installs_provider allOkEnv
    { AssumeRole := "r", AssumeRoleExternalID := "x" } (by decide)
    (mkSessionV1 { AssumeRole := "r", AssumeRoleExternalID := "x" }) rfl
    (mkConfigV2 { AssumeRole := "r", AssumeRoleExternalID := "x" }) rfl

/-- C4: when `AssumeRole` is empty, both build paths leave the handle's
credential source as the SDK default chain, whatever
`AssumeRoleExternalID` is. -/
theorem empty_assumeRole_default_chain (env : SDKEnv) (c : AWSSessionConfig)
    (h : c.AssumeRole = "")
    (s : SessionV1) (hs : newSession env c = .ok s)
    (v : ConfigV2) (hv : newV2Config env c = .ok v) :
    s.credentials = CredSource.defaultChain ∧
    v.credentials = CredSource.defaultChain := by
  rw [mkSessionV1_of_newSession_ok hs, mkConfigV2_of_newV2Config_ok hv]
  rw [mkSessionV1_credentials, mkConfigV2_credentials,
    if_neg (fun hne => hne h), if_neg (fun hne => hne h)]
  exact ⟨rfl, rfl⟩

theorem empty_assumeRole_default_chain_witness :
    (mkSessionV1 { AssumeRoleExternalID := "x" }).credentials =
      CredSource.defaultChain ∧
    (mkConfigV2 { AssumeRoleExternalID := "x" }).credentials =
      CredSource.defaultChain :=
  empty_assumeRole_default_chain allOkEnv { AssumeRoleExternalID := "x" } rfl
    (mkSessionV1 { AssumeRoleExternalID := "x" }) rfl
    (mkConfigV2 { AssumeRoleExternalID := "x" }) rfl

/-- C5: for an empty profile list, or a single-element list holding only
the empty string, `CreateSessions` returns exactly one entry keyed by the
default key, built with the same logic as the default build (Profile left
empty). -/
theorem createSessions_no_profiles (env : SDKEnv) (cfg : ExternalDNSConfig)
    (h : cfg.AWSProfiles = [] ∨ cfg.AWSProfiles = [""]) :
    CreateSessions env cfg =
      (newSession env
        { AssumeRole := cfg.AWSAssumeRole
        , AssumeRoleExternalID := cfg.AWSAssumeRoleExternalID
        , APIRetries := cfg.AWSAPIRetries }).map
        (fun s => [(defaultAWSProfile, s)]) := by
  have hcond : cfg.AWSProfiles.length = 0 ∨
      (cfg.AWSProfiles.length = 1 ∧ cfg.AWSProfiles.head? = some "") := by
    rcases h with h | h <;> rw [h] <;> simp
  unfold CreateSessions
  rw [if_pos hcond]
  cases hn : newSession env
      { AssumeRole := cfg.AWSAssumeRole
      , AssumeRoleExternalID := cfg.AWSAssumeRoleExternalID
      , APIRetries := cfg.AWSAPIRetries } with
  | error e => rw [Except.map]
  | ok s => rw [Except.map]

theorem createSessions_no_profiles_witness :
    CreateSessions allOkEnv { AWSProfiles := [] } =
      (newSession allOkEnv {}).map (fun s => [(defaultAWSProfile, s)]) :=
  createSessions_no_profiles allOkEnv { AWSProfiles := [] } (Or.inl rfl)

/-- C6: for a non-empty list of distinct profile names other than `[""]`,
`CreateSessions` returns one entry per requested name, in list order, each
keyed by its name and holding the session built with `Profile` set to that
name. -/
theorem createSessions_distinct_profiles (env : SDKEnv)
    (cfg : ExternalDNSConfig)
    (hne : cfg.AWSProfiles ≠ [])
    (hns : cfg.AWSProfiles ≠ [""])
    (hnodup : cfg.AWSProfiles.Nodup)
    (hok : ∀ p ∈ cfg.AWSProfiles, env.v1New p = .ok ()) :
    CreateSessions env cfg =
      .ok (cfg.AWSProfiles.map
        (fun p => (p, mkSessionV1 (cfgFor cfg p)))) := by
  unfold CreateSessions
  rw [if_neg (createSessions_branch_neg hne hns),
    createSessionsLoop_all_ok env cfg _ [] hok]
  have hfold := loopFold_of_nodup cfg cfg.AWSProfiles [] hnodup
    (by intro p _ hmem; exact absurd hmem (List.not_mem_nil p))
  unfold loopFold at hfold
  rw [hfold, List.nil_append]

theorem createSessions_distinct_profiles_witness :
    CreateSessions allOkEnv { AWSProfiles := ["p1", "p2"] } =
      .ok [("p1", mkSessionV1 (cfgFor { AWSProfiles := ["p1", "p2"] } "p1")),
           ("p2", mkSessionV1 (cfgFor { AWSProfiles := ["p1", "p2"] } "p2"))] :=
  createSessions_distinct_profiles allOkEnv { AWSProfiles := ["p1", "p2"] }
    (by decide) (by decide) (by decide) (fun p _ => rfl)

/-- C7: the path-label reducer returns the final path segment — the
substring after the last `/` — on every input; on
`/2013-04-01/hostedzone/ZABCDEF123/rrset` it returns `rrset`; and it is
the reducer installed by both SDK-generation paths. -/
theorem pathProcessor_last_segment :
    (∀ path : String, pathProcessor path = some (specLastSegment path)) ∧
    pathProcessor "/2013-04-01/hostedzone/ZABCDEF123/rrset" = some "rrset" ∧
    (∀ c : AWSSessionConfig,
      (mkSessionV1 c).httpClient.processorOf = some pathProcessor ∧
      (mkConfigV2 c).httpClient.processorOf = some pathProcessor) :=
  ⟨pathProcessor_eq_specLastSegment, by decide, fun _ => ⟨rfl, rfl⟩⟩

/-- C9: the path-label reducer is total: the split always yields a
non-empty list, so the indexing is always in bounds; on the empty string
the label is the empty string, and on any path ending in `/` the label is
the empty string. -/
theorem pathProcessor_total :
    (∀ path : String, (pathProcessor path).isSome = true) ∧
    (∀ path : String, goSplit path '/' ≠ []) ∧
    pathProcessor "" = some "" ∧
    (∀ s : String, pathProcessor (s.push '/') = some "") := by
  refine ⟨?_, ?_, by decide, ?_⟩
  · intro path
    rw [pathProcessor_eq_specLastSegment]
    rfl
  · intro path h
    exact goSplitChars_ne_nil '/' path.data (List.map_eq_nil_iff.mp h)
  · intro s
    obtain ⟨l⟩ := s
    rw [pathProcessor_eq_specLastSegment]
    show some (String.mk (specLastSegmentChars '/' (l ++ ['/']))) = some ""
    rw [specLastSegmentChars_concat_sep]

/-- C8: a failed SDK base construction is wrapped with a descriptive
prefix and no handle is returned; the top-level entry points propagate the
wrapped error to the fatal exit (the `.error` branch); and `CreateSessions`
never returns a partial mapping — an `.ok` map means every requested
profile's base construction succeeded. -/
theorem construction_failure_fatal :
    (∀ (env : SDKEnv) (c : AWSSessionConfig) (e : String),
        env.v1New c.Profile = .error e →
        newSession env c = .error ("instantiating AWS session: " ++ e)) ∧
    (∀ (env : SDKEnv) (c : AWSSessionConfig) (e : String),
        env.v2Load c.Profile = .error e →
        newV2Config env c = .error ("instantiating AWS config: " ++ e)) ∧
    (∀ (env : SDKEnv) (cfg : ExternalDNSConfig) (e : String),
        env.v1New "" = .error e →
        CreateDefaultSession env cfg =
          .error ("instantiating AWS session: " ++ e)) ∧
    (∀ (env : SDKEnv) (cfg : ExternalDNSConfig) (e : String),
        env.v2Load "" = .error e →
        CreateDefaultV2Config env cfg =
          .error ("instantiating AWS config: " ++ e)) ∧
    (∀ (env : SDKEnv) (cfg : ExternalDNSConfig)
        (m : List (String × SessionV1)),
        CreateSessions env cfg = .ok m →
        ∀ p ∈ cfg.AWSProfiles, env.v1New p = .ok ()) := by
  refine ⟨?_, ?_, ?_, ?_, ?_⟩
  · intro env c e h
    exact newSession_error_of h
  · intro env c e h
    exact newV2Config_error_of h
  · intro env cfg e h
    exact newSession_error_of h
  · intro env cfg e h
    exact newV2Config_error_of h
  · intro env cfg m h p hp
    unfold CreateSessions at h
    by_cases hcond : cfg.AWSProfiles.length = 0 ∨
        (cfg.AWSProfiles.length = 1 ∧ cfg.AWSProfiles.head? = some "")
    · rw [if_pos hcond] at h
      rcases hcond with h0 | ⟨h1, h2⟩
      · rw [List.length_eq_zero] at h0
        rw [h0] at hp
        exact absurd hp (List.not_mem_nil p)
      · have hps : cfg.AWSProfiles = [""] := by
          cases hl : cfg.AWSProfiles with
          | nil =>
            rw [hl] at h1
            exact absurd h1 (by simp)
          | cons a t =>
            rw [hl] at h1 h2
            simp only [List.head?_cons, Option.some.injEq] at h2
            subst h2
            cases t with
            | nil => rfl
            | cons b t' => simp at h1
        rw [hps, List.mem_singleton] at hp
        subst hp
        cases hn : newSession env
            { AssumeRole := cfg.AWSAssumeRole
            , AssumeRoleExternalID := cfg.AWSAssumeRoleExternalID
            , APIRetries := cfg.AWSAPIRetries } with
        | error e =>
          rw [hn] at h
          exact absurd h (by simp)
        | ok s =>
          exact v1New_ok_of_newSession_ok hn
    · rw [if_neg hcond] at h
      exact createSessionsLoop_ok_all h p hp

/-- C10: for any requested profile list (duplicates allowed), an `.ok`
result of `CreateSessions` on the profile branch has pairwise-distinct
keys, its key set is exactly the set of requested names, and each name
maps to the session built with `Profile` set to that name (the value of
its last occurrence — all occurrences build the same session). -/
theorem createSessions_duplicate_profiles (env : SDKEnv)
    (cfg : ExternalDNSConfig)
    (hne : cfg.AWSProfiles ≠ [])
    (hns : cfg.AWSProfiles ≠ [""])
    (hok : ∀ p ∈ cfg.AWSProfiles, env.v1New p = .ok ()) :
    ∃ m, CreateSessions env cfg = .ok m ∧
      (m.map Prod.fst).Nodup ∧
      (∀ q, q ∈ m.map Prod.fst ↔ q ∈ cfg.AWSProfiles) ∧
      (∀ q ∈ cfg.AWSProfiles,
        mapLookup m q = some (mkSessionV1 (cfgFor cfg q))) := by
  refine ⟨loopFold cfg cfg.AWSProfiles [], ?_, ?_, ?_, ?_⟩
  · unfold CreateSessions
    rw [if_neg (createSessions_branch_neg hne hns),
      createSessionsLoop_all_ok env cfg _ [] hok]
    rfl
  · exact loopFold_keys_nodup cfg cfg.AWSProfiles [] List.nodup_nil
  · intro q
    rw [loopFold_mem_keys]
    simp
  · intro q hq
    exact loopFold_lookup_mem cfg cfg.AWSProfiles [] q hq

theorem createSessions_duplicate_profiles_witness :
    ∃ m, CreateSessions allOkEnv { AWSProfiles := ["a", "b", "a"] } = .ok m ∧
      (m.map Prod.fst).Nodup ∧
      (∀ q, q ∈ m.map Prod.fst ↔ q ∈ ["a", "b", "a"]) ∧
      (∀ q ∈ ["a", "b", "a"],
        mapLookup m q =
          some (mkSessionV1 (cfgFor { AWSProfiles := ["a", "b", "a"] } q))) :=
  createSessions_duplicate_profiles allOkEnv
    { AWSProfiles := ["a", "b", "a"] } (by decide) (by decide) (fun p _ => rfl)

end AWSSession
